import Mathlib

/-!
Verification development for the solar-dashboard server (`src/server.js`).

The server is shallowly embedded: the mutable module-level caches
(`durationCache`, `cache`, `sseClients`) become explicit state values that
are threaded through the modelled functions, network I/O becomes explicit
oracle parameters (`Upstream`, `String → HeadResp`), and JavaScript numbers
on the duration/count fields are modelled as `Nat` (they hold second counts
and attempt counts).  Each definition cites the line range of `src/server.js`
it embeds.
-/

namespace Server

/-! ### Records (normalized shape, server.js lines 72–108) -/

/-- A JavaScript value appearing in a record field: the normalized record
holds strings and numbers (numbers modelled as `Nat`). -/
inductive JSValue where
  | num (v : Nat)
  | str (v : String)
deriving DecidableEq, Repr

/-- A raw Airtable field value, as delivered by the upstream store. -/
inductive FieldVal where
  | s (v : String)
  | n (v : Nat)
deriving DecidableEq, Repr

/-- A raw upstream record: an id and a field map (`r.id`, `r.fields`). -/
structure RawRecord where
  id : String
  fields : List (String × FieldVal)
deriving DecidableEq, Repr

/-- Field-map lookup (`f[name]`), first binding wins as in a JS object. -/
def fieldGet (f : List (String × FieldVal)) (k : String) : Option FieldVal :=
  (f.find? (fun e => e.1 == k)).map (·.2)

/-- `f[name] || ''` on a text field (assumed to hold a string when present). -/
def getS (f : List (String × FieldVal)) (k : String) : String :=
  match fieldGet f k with
  | some (.s v) => v
  | _ => ""

/-- `f[name] || 0` on a numeric field (assumed to hold a number when present). -/
def getN (f : List (String × FieldVal)) (k : String) : Nat :=
  match fieldGet f k with
  | some (.n v) => v
  | _ => 0

/-- The static `AGENT_NAMES` table, server.js lines 15–18. -/
def AGENT_NAMES : List (String × String) :=
  [("agent_1e091e25b84ea5d6b51088aaed", "Rebate Program"),
   ("agent_458529f65d305930d071f2a93e", "Reduced Energy")]

/-- The normalized record produced by the fetcher (server.js lines 72–108).
The `fields` back-reference to the raw map is not carried (no modelled claim
reads it); `roofAge`/`daysSinceContact` use `?? ''` in the source and so may
be either a number or the empty string, hence `JSValue`. -/
structure Record where
  id : String
  firstName : String := ""
  lastName : String := ""
  phone : String := ""
  email : String := ""
  address : String := ""
  city : String := ""
  state : String := ""
  zip : String := ""
  status : String := ""
  callOutcome : String := ""
  lastCallDate : String := ""
  recordingUrl : String := ""
  transcript : String := ""
  notes : String := ""
  callDuration : Nat := 0
  attemptCount : Nat := 0
  electricBill : String := ""
  roofAge : JSValue := .str ""
  utilityCompany : String := ""
  calendarLink : String := ""
  calculatedDate : String := ""
  retellCallId : String := ""
  agentId : String := ""
  agentName : String := "Unknown"
  createdDate : String := ""
  lastModified : String := ""
  daysSinceContact : JSValue := .str ""
  source : String := ""
  rep : String := ""
  probedDuration : Nat := 0
deriving DecidableEq, Repr

/-- `AGENT_NAMES[f['Agent ID']] || f['Agent ID'] || 'Unknown'` (line 100). -/
def agentDisplayName (aid : String) : String :=
  match (AGENT_NAMES.find? (fun e => e.1 == aid)).map (·.2) with
  | some nm => nm
  | none => if aid ≠ "" then aid else "Unknown"

/-- `f['Roof Age (Years)'] ?? ''` style access (lines 94, 103): keeps the
value (number or string) when the field is present, else empty string. -/
def getNullish (f : List (String × FieldVal)) (k : String) : JSValue :=
  match fieldGet f k with
  | some (.n v) => .num v
  | some (.s v) => .str v
  | none => .str ""

/-- Normalization of one raw record, server.js lines 72–108.
`probedDuration` is attached later (lines 113–115), so it starts at 0. -/
def normalize (r : RawRecord) : Record :=
  let f := r.fields
  { id := r.id
    firstName := getS f "First Name"
    lastName := getS f "Last Name"
    phone := getS f "Phone"
    email := getS f "Email"
    address := getS f "Address"
    city := getS f "City"
    state := getS f "State"
    zip := getS f "Zip"
    status := getS f "Status"
    callOutcome := getS f "Call Outcome"
    lastCallDate := getS f "Last Call Date"
    recordingUrl :=
      let a := getS f "Latest Recording"
      if a ≠ "" then a else getS f "Recording URLs"
    transcript := getS f "Transcript"
    notes := getS f "Notes"
    callDuration := getN f "Call Duration"
    attemptCount := getN f "Attempt Count"
    electricBill := getS f "Electric Bill"
    roofAge := getNullish f "Roof Age (Years)"
    utilityCompany := getS f "Utility Company"
    calendarLink := getS f "Calendar Link"
    calculatedDate := getS f "Calculated Date"
    retellCallId := getS f "Retell Call ID"
    agentId := getS f "Agent ID"
    agentName := agentDisplayName (getS f "Agent ID")
    createdDate := getS f "Created Date"
    lastModified := getS f "Last Modified"
    daysSinceContact := getNullish f "Days Since Contact"
    source := getS f "Source"
    rep := getS f "Rep"
    probedDuration := 0 }

/-! ### Duration probe cache (server.js lines 20–36) -/

/-- Outcome of the `HEAD` metadata request issued by `probeWavDuration`:
a 2xx response carrying a numeric content-length (a missing header is
`parseInt('0') = 0`), or any failure (non-2xx, timeout, transport error —
all reach `return 0` without touching the cache). -/
inductive HeadResp where
  | ok (contentLength : Nat)
  | fail
deriving DecidableEq, Repr

/-- The module-level `durationCache` map (line 21), url → seconds.
Newest binding first, mirroring `Map.set` overwrite semantics. -/
abbrev DurCache := List (String × Nat)

/-- `durationCache.get(url)` / `durationCache.has(url)`. -/
def durGet (c : DurCache) (u : String) : Option Nat :=
  (c.find? (fun e => e.1 == u)).map (·.2)

/-- `durationCache.set(url, dur)`. -/
def durSet (c : DurCache) (u : String) (d : Nat) : DurCache :=
  (u, d) :: c

/-- Result of one `probeWavDuration` call: the returned value, the duration
cache afterwards, and how many metadata (HEAD) requests were issued. -/
structure ProbeOut where
  value : Nat
  cache : DurCache
  requests : Nat
deriving DecidableEq, Repr

/-- `Math.round((len - 44) / 48000)` for `len > 44` (line 32): round half up. -/
def wavSeconds (len : Nat) : Nat :=
  (len - 44 + 24000) / 48000

/-- `probeWavDuration`, server.js lines 23–36.  Note that only the success
path with `content-length > 44` writes to `durationCache` (line 33); the
`!resp.ok`, short-length and `catch` paths return 0 without caching. -/
def probeWavDuration (c : DurCache) (oracle : String → HeadResp) (url : String) :
    ProbeOut :=
  if url = "" then ⟨0, c, 0⟩
  else
    match durGet c url with
    | some d => ⟨d, c, 0⟩
    | none =>
      match oracle url with
      | .fail => ⟨0, c, 1⟩
      | .ok len =>
        if len ≤ 44 then ⟨0, c, 1⟩
        else ⟨wavSeconds len, durSet c url (wavSeconds len), 1⟩

/-- An oracle on which every metadata request fails. -/
def failOracle : String → HeadResp := fun _ => HeadResp.fail

/-! ### Snapshot fetcher and cache (server.js lines 38–123) -/

/-- One upstream page: `data.records` and the optional continuation
`data.offset` (lines 67–69). -/
structure Page where
  records : List RawRecord
  offset : Option String
deriving DecidableEq, Repr

/-- The upstream store as an oracle: given the current offset (none on the
first request), either a page or an error (non-2xx / transport failure,
line 66). -/
abbrev Upstream := Option String → Except String Page

/-- The pagination loop of `fetchAllRecords` (lines 54–70): follow offsets,
concatenating pages; any page failure aborts the whole call.  `fuel` bounds
the number of pages (an upstream that never stops returning offsets would
make the JS loop run forever; running out of fuel is modelled as an error). -/
def fetchPages (up : Upstream) : Nat → Option String → Except String (List RawRecord)
  | 0, _ => .error "pagination did not terminate"
  | fuel + 1, off =>
    match up off with
    | .error e => .error e
    | .ok pg =>
      match pg.offset with
      | none => .ok pg.records
      | some o2 => (fetchPages up fuel (some o2)).map (pg.records ++ ·)

/-- `probeAllDurations` (lines 38–44): select records with a recording url,
no explicit duration and no cache entry, and probe each.  The JS probes run
concurrently via `Promise.all`; with a deterministic oracle the resulting
cache state equals this sequential fold. -/
def probeAllDurations (c : DurCache) (o : String → HeadResp) (recs : List Record) :
    DurCache :=
  let toProbe := recs.filter fun r =>
    r.recordingUrl ≠ "" && r.callDuration == 0 && (durGet c r.recordingUrl).isNone
  toProbe.foldl (fun acc r => (probeWavDuration acc o r.recordingUrl).cache) c

/-- The module-level `cache` object (line 47). -/
structure SnapState where
  records : Option (List Record)
  raw : List RawRecord
  ts : Int
deriving DecidableEq, Repr

/-- All mutable server state touched by `fetchAllRecords`: the snapshot
cache and the duration cache. -/
structure SysState where
  cache : SnapState
  durCache : DurCache
deriving DecidableEq, Repr

/-- `CACHE_TTL = 20_000` (line 48). -/
def CACHE_TTL : Int := 20000

/-- Change events broadcast by `detectChanges` (lines 128–143), in the order
the `broadcast` calls happen. -/
inductive ChangeEvent where
  | new_lead (name : String)
  | status_change (name oldStatus newStatus : String)
  | appointment_booked (name : String)
  | new_call (name outcome : String)
deriving DecidableEq, Repr

/-- `nr.firstName + ' ' + nr.lastName` (lines 133–140). -/
def displayName (r : Record) : String := r.firstName ++ " " ++ r.lastName

/-- `new Map(oldRecs.map(r => [r.id, r]))` then `.get(id)` (lines 129–131):
for duplicate ids the later `Map` entry overwrites the earlier one, so the
lookup finds the last record with the id. -/
def oldMapGet (oldRecs : List Record) (i : String) : Option Record :=
  oldRecs.reverse.find? (fun r => r.id == i)

/-- The per-new-record branch of `detectChanges` (lines 131–141): NewRecord
when the id is absent from the old snapshot; else a status change (plus
AppointmentBooked exactly on a transition into "Booked"); else a new call
when only the last-call date moved; else nothing. -/
def eventsFor (oldRecs : List Record) (nr : Record) : List ChangeEvent :=
  match oldMapGet oldRecs nr.id with
  | none => [.new_lead (displayName nr)]
  | some o =>
    if o.status ≠ nr.status then
      .status_change (displayName nr) o.status nr.status ::
        (if nr.status = "Booked" ∧ o.status ≠ "Booked" then
          [.appointment_booked (displayName nr)]
        else [])
    else if o.lastCallDate ≠ nr.lastCallDate then
      [.new_call (displayName nr) nr.callOutcome]
    else []

/-- `detectChanges` (lines 128–143), as the sequence of broadcast events:
one group of events per new record, in new-snapshot iteration order. -/
def detectChanges (oldRecs newRecs : List Record) : List ChangeEvent :=
  newRecs.flatMap (eventsFor oldRecs)

/-- `r.probedDuration = r.callDuration || durationCache.get(r.recordingUrl) || 0`
(lines 113–115): the explicit duration when truthy, else the cached probe
result when present (`undefined` and a cached 0 both fall through to 0). -/
def attachProbed (dc : DurCache) (r : Record) : Record :=
  { r with probedDuration :=
      if r.callDuration ≠ 0 then r.callDuration
      else (durGet dc r.recordingUrl).getD 0 }

deriving instance DecidableEq for Except

/-- Result of one `fetchAllRecords` call: the value returned (or the error
thrown), the server state afterwards, how many upstream snapshot refreshes
the call performed (0 on a cache hit, 1 otherwise), and the change events
broadcast during the call. -/
structure FetchOut where
  result : Except String (List Record)
  state : SysState
  fetches : Nat
  events : List ChangeEvent
deriving DecidableEq, Repr

/-- The refresh path of `fetchAllRecords` (lines 54–122): paginate, map,
probe, attach `probedDuration`, swap the cache, diff against the previous
snapshot.  On a page failure the `throw` at line 66 propagates before any
state is written. -/
def doRefresh (st : SysState) (now : Int) (up : Upstream) (o : String → HeadResp)
    (fuel : Nat) : FetchOut :=
  match fetchPages up fuel none with
  | .error e => ⟨.error e, st, 1, []⟩
  | .ok allRecords =>
    let mapped0 := allRecords.map normalize
    let dc := probeAllDurations st.durCache o mapped0
    let mapped := mapped0.map (attachProbed dc)
    let events :=
      match st.cache.records with
      | some prev => detectChanges prev mapped
      | none => []
    ⟨.ok mapped, ⟨⟨some mapped, allRecords, now⟩, dc⟩, 1, events⟩

/-- `fetchAllRecords` (lines 50–123): serve the cached snapshot while it is
fresh (`cache.records` non-null and `now - cache.ts < CACHE_TTL`), otherwise
refresh. -/
def fetchAllRecords (st : SysState) (now : Int) (up : Upstream)
    (o : String → HeadResp) (fuel : Nat) : FetchOut :=
  match st.cache.records with
  | some rs =>
    if now - st.cache.ts < CACHE_TTL then ⟨.ok rs, st, 0, []⟩
    else doRefresh st now up o fuel
  | none => doRefresh st now up o fuel

/-! ### Concurrent readers of `fetchAllRecords` (server.js lines 50–123)

JavaScript is single-threaded but `fetchAllRecords` is `async`: each caller
runs atomically from entry up to its first `await` (the upstream request at
line 65) and resumes later.  Decisive structure: the staleness check (line
52) runs before the first `await`, and the cache swap (line 118) runs after
the last one.  The model gives each concurrent call a task that advances in
two atomic segments; the whole fetch pipeline (pages, mapping, probing) is
abstracted into the single suspended step, with a fixed upstream snapshot as
its result. -/

/-- Where one in-flight `fetchAllRecords` call stands: before the staleness
check, suspended awaiting its own upstream fetch, or returned. -/
inductive TaskState where
  | ready
  | awaitingFetch
  | done (res : List Record)
deriving DecidableEq, Repr

/-- The `cache` global as the concurrency model sees it. -/
structure ConcCache where
  records : Option (List Record)
  ts : Int
deriving DecidableEq, Repr

/-- Event-loop state: the shared cache, every reader's task, and how many
upstream snapshot fetches have been started. -/
structure ConcState where
  cache : ConcCache
  tasks : List TaskState
  fetchCount : Nat
deriving DecidableEq, Repr

/-- The staleness check of line 52: `cache.records && now - cache.ts < TTL`. -/
def cacheFresh (c : ConcCache) (now : Int) : Bool :=
  c.records.isSome && decide (now - c.ts < CACHE_TTL)

/-- Run one atomic segment of task `i`: a `ready` task performs the check of
line 52 and either returns the cached snapshot or starts its own upstream
fetch (there is no coalescing guard in the source); an `awaitingFetch` task
resumes at line 118, swaps the cache and returns its snapshot. -/
def stepTask (upstream : List Record) (now : Int) (s : ConcState) (i : Nat) :
    ConcState :=
  match s.tasks[i]? with
  | none => s
  | some .ready =>
    if cacheFresh s.cache now then
      { s with tasks := s.tasks.set i (.done (s.cache.records.getD [])) }
    else
      { s with tasks := s.tasks.set i .awaitingFetch,
               fetchCount := s.fetchCount + 1 }
  | some .awaitingFetch =>
    { cache := ⟨some upstream, now⟩,
      tasks := s.tasks.set i (.done upstream),
      fetchCount := s.fetchCount }
  | some (.done _) => s

/-- Run the event loop over an explicit schedule of task ids. -/
def runSched (upstream : List Record) (now : Int) (s : ConcState)
    (sched : List Nat) : ConcState :=
  sched.foldl (stepTask upstream now) s

/-- `n` concurrent readers entering `fetchAllRecords` on an empty (hence
stale) cache. -/
def initConc (n : Nat) : ConcState :=
  ⟨⟨none, 0⟩, List.replicate n .ready, 0⟩

/-- The schedule where every reader performs its staleness check before any
fetch completes — exactly what the event loop does when all `get()` calls
arrive while the first fetch is still in flight. -/
def staleBurst (n : Nat) : List Nat :=
  List.range n ++ List.range n

/-! ### SSE broadcaster (server.js lines 126, 145–148, 169–174) -/

/-- One subscribed SSE response channel: its identity and whether a
`write` on it succeeds.  `sseClients` iterates in insertion order. -/
structure SSEClient where
  id : Nat
  writeOk : Bool
deriving DecidableEq, Repr

/-- The write loop of `broadcast` (lines 145–148) as the list of clients
whose `write` ran: the body has no `try`/`catch`, so a throwing `write`
aborts the loop and later clients receive nothing. -/
def broadcastWrites : List SSEClient → List Nat
  | [] => []
  | c :: rest => if c.writeOk then c.id :: broadcastWrites rest else []

/-- The observable outcome of one `broadcast(event)` call: which ids got the
frame, and the subscriber set afterwards. -/
def broadcast (clients : List SSEClient) : List Nat × List SSEClient :=
  (broadcastWrites clients, clients)

/-! ### Analytics duration buckets (server.js lines 348–361) -/

/-- The `durationBuckets` accumulator object (line 348). -/
structure DurationBuckets where
  b0_30 : Nat
  b30_60 : Nat
  b1_2m : Nat
  b2_5m : Nat
  b5_10m : Nat
  b10mPlus : Nat
deriving DecidableEq, Repr

/-- Total of all six buckets. -/
def DurationBuckets.total (b : DurationBuckets) : Nat :=
  b.b0_30 + b.b30_60 + b.b1_2m + b.b2_5m + b.b5_10m + b.b10mPlus

/-- The per-record bucket update of lines 353–361: only records with
`probedDuration > 0` are counted, into the first matching boundary. -/
def bucketAdd (b : DurationBuckets) (r : Record) : DurationBuckets :=
  if 0 < r.probedDuration then
    if r.probedDuration ≤ 30 then { b with b0_30 := b.b0_30 + 1 }
    else if r.probedDuration ≤ 60 then { b with b30_60 := b.b30_60 + 1 }
    else if r.probedDuration ≤ 120 then { b with b1_2m := b.b1_2m + 1 }
    else if r.probedDuration ≤ 300 then { b with b2_5m := b.b2_5m + 1 }
    else if r.probedDuration ≤ 600 then { b with b5_10m := b.b5_10m + 1 }
    else { b with b10mPlus := b.b10mPlus + 1 }
  else b

/-- The duration-bucket histogram of the analytics endpoint (the
`for (const r of all)` loop restricted to its lines 353–361). -/
def durationBuckets (recs : List Record) : DurationBuckets :=
  recs.foldl bucketAdd ⟨0, 0, 0, 0, 0, 0⟩

/-! ### The leads view: `GET /api/leads` (server.js lines 177–265) -/

/-- Split on a separator character, as JavaScript `s.split(sep)`:
`"" → [""]`, separators at the edges produce empty fields. -/
def splitAux (sep : Char) : List Char → List Char → List String
  | [], acc => [String.mk acc.reverse]
  | c :: rest, acc =>
    if c = sep then String.mk acc.reverse :: splitAux sep rest []
    else splitAux sep rest (c :: acc)

/-- JavaScript `s.split(sep)` for a one-character separator. -/
def jsSplit (s : String) (sep : Char) : List String := splitAux sep s.data []

/-- JavaScript `s <= t` string comparison: lexicographic by character code
(code points; identical to UTF-16 code-unit order on the BMP strings the
server compares). -/
def charsLe : List Char → List Char → Bool
  | [], _ => true
  | _ :: _, [] => false
  | a :: as, b :: bs =>
    if a.toNat < b.toNat then true
    else if b.toNat < a.toNat then false
    else charsLe as bs

/-- See `charsLe`. -/
def strLe (s t : String) : Bool := charsLe s.data t.data

/-- JavaScript `s.startsWith(p)`. -/
def strStartsWith (s p : String) : Bool := p.data.isPrefixOf s.data

/-- JavaScript `s.toLowerCase()` (per-character lowering). -/
def strToLower (s : String) : String := String.mk (s.data.map Char.toLower)

/-- `haystack.includes(needle)` on character lists. -/
def charsContain (needle : List Char) : List Char → Bool
  | [] => needle.isEmpty
  | c :: rest => needle.isPrefixOf (c :: rest) || charsContain needle rest

/-- JavaScript `s.includes(q)`. -/
def strIncludes (s q : String) : Bool :=
  charsContain q.data s.data

/-- The text-search predicate of lines 185–188 (`q` is the lowercased
search string; the phone is matched without lowercasing, as in the source). -/
def searchMatch (q : String) (r : Record) : Bool :=
  strIncludes (strToLower (r.firstName ++ " " ++ r.lastName)) q ||
  strIncludes r.phone q ||
  strIncludes (strToLower r.address) q ||
  strIncludes (strToLower r.email) q

/-- The request query after Express parsing (line 180 destructuring, with
its defaults).  Empty strings model absent parameters (absent and `''` are
equally falsy at every use site); `minDuration` is the parsed integer when
the parameter is present and truthy. -/
structure Query where
  search : String := ""
  status : String := ""
  outcome : String := ""
  agent : String := ""
  dateFrom : String := ""
  dateTo : String := ""
  minDuration : Option Nat := none
  page : Nat := 1
  limit : Nat := 20
  sort : String := "lastCallDate"
  dir : String := "desc"
deriving DecidableEq, Repr

/-- The filter chain of lines 182–195, in source order. -/
def applyFilters (all : List Record) (q : Query) : List Record :=
  let f1 := if q.search ≠ "" then all.filter (searchMatch (strToLower q.search)) else all
  let f2 := if q.status ≠ "" then
      let ss := jsSplit q.status ','
      f1.filter (fun r => ss.contains r.status)
    else f1
  let f3 := if q.outcome ≠ "" then
      let oo := jsSplit q.outcome ','
      f2.filter (fun r => oo.contains r.callOutcome)
    else f2
  let f4 := if q.agent ≠ "" then
      let aa := jsSplit q.agent ','
      f3.filter (fun r => aa.contains r.agentId || aa.contains r.agentName)
    else f3
  let f5 := if q.dateFrom ≠ "" then
      f4.filter (fun r => strLe q.dateFrom r.lastCallDate)
    else f4
  let f6 := if q.dateTo ≠ "" then
      f5.filter (fun r => strLe r.lastCallDate (q.dateTo ++ "T23:59:59"))
    else f5
  match q.minDuration with
  | some md => f6.filter (fun r => decide (md ≤ r.probedDuration))
  | none => f6

/-- `a[sortKey] ?? ''` (line 199) on the normalized record: named fields
give their value, any other key the empty string. -/
def getJSField (r : Record) : String → JSValue
  | "id" => .str r.id
  | "firstName" => .str r.firstName
  | "lastName" => .str r.lastName
  | "phone" => .str r.phone
  | "email" => .str r.email
  | "address" => .str r.address
  | "city" => .str r.city
  | "state" => .str r.state
  | "zip" => .str r.zip
  | "status" => .str r.status
  | "callOutcome" => .str r.callOutcome
  | "lastCallDate" => .str r.lastCallDate
  | "recordingUrl" => .str r.recordingUrl
  | "transcript" => .str r.transcript
  | "notes" => .str r.notes
  | "callDuration" => .num r.callDuration
  | "attemptCount" => .num r.attemptCount
  | "electricBill" => .str r.electricBill
  | "roofAge" => r.roofAge
  | "utilityCompany" => .str r.utilityCompany
  | "calendarLink" => .str r.calendarLink
  | "calculatedDate" => .str r.calculatedDate
  | "retellCallId" => .str r.retellCallId
  | "agentId" => .str r.agentId
  | "agentName" => .str r.agentName
  | "createdDate" => .str r.createdDate
  | "lastModified" => .str r.lastModified
  | "daysSinceContact" => r.daysSinceContact
  | "source" => .str r.source
  | "rep" => .str r.rep
  | "probedDuration" => .num r.probedDuration
  | _ => .str ""

/-- `String(v)` as used at line 201. -/
def jsString : JSValue → String
  | .num n => toString n
  | .str s => s

/-- The comparator body of lines 199–202 on two field values: when both are
numbers they compare numerically (`av - bv`); otherwise both are converted
to strings and compared with `localeCompare`, whose (implementation-defined)
collation enters the model as the parameter `strCmp`. -/
def cmpJS (strCmp : String → String → Ordering) : JSValue → JSValue → Ordering
  | .num a, .num b => compare a b
  | a, b => strCmp (jsString a) (jsString b)

/-- The full comparator of lines 198–203, including the direction flip. -/
def recCmp (strCmp : String → String → Ordering) (key dir : String)
    (a b : Record) : Ordering :=
  if dir = "asc" then cmpJS strCmp (getJSField a key) (getJSField b key)
  else cmpJS strCmp (getJSField b key) (getJSField a key)

/-- `a` may stay before `b` under the comparator (result ≤ 0). -/
def recLE (strCmp : String → String → Ordering) (key dir : String)
    (a b : Record) : Prop :=
  recCmp strCmp key dir a b ≠ Ordering.gt

instance (strCmp : String → String → Ordering) (key dir : String) :
    DecidableRel (recLE strCmp key dir) := fun a b => by
  unfold recLE; infer_instance

/-- `filtered.sort(comparator)` (lines 198–203).  ECMA-262 requires
`Array.prototype.sort` to be stable, and for a consistent comparator the
stable sorted order is unique, so the stable insertion sort is an exact
model of V8's sort whenever the comparator is consistent. -/
def sortRecords (strCmp : String → String → Ordering) (key dir : String)
    (recs : List Record) : List Record :=
  recs.insertionSort (recLE strCmp key dir)

/-- The date strings the stats block derives from `Date.now()` (lines
212–213 and 236–238): today, yesterday, and the trailing seven calendar
days oldest-first.  Wall-clock time is not modelled; the strings enter as
a parameter. -/
structure DateCtx where
  today : String
  yesterday : String
  last7 : List String
deriving DecidableEq, Repr

/-- `Math.round`-style rounded division (round half up). -/
def natRoundDiv (a b : Nat) : Nat := (2 * a + b) / (2 * b)

/-- `r.lastCallDate.split('T')[0]` (line 242). -/
def dayOf (s : String) : String := (jsSplit s 'T').headD ""

/-- The `stats` block of the response (lines 211–245, 253–260).  Percentages
with `toFixed(1)` are carried as integer tenths (`'30.0'` ↔ 300); the `'—'`
sentinel for `avgAttemptsToBook` is `none`. -/
structure Stats where
  bookedToday : Nat
  bookedYesterday : Nat
  readyToCall : Nat
  needsRetry : Nat
  callbacksScheduled : Nat
  currentlyCalling : Nat
  totalCallsToday : Nat
  totalCallsYesterday : Nat
  conversionRateTenths : Nat
  totalBooked : Nat
  totalContacted : Nat
  avgDuration : Nat
  avgAttemptsToBookTenths : Option Nat
  callsTrend : List Nat
  bookedTrend : List Nat
  trendDays : List String
deriving DecidableEq, Repr

/-- Lines 211–245: every aggregate is computed over `all`, the unfiltered
snapshot. -/
def computeStats (all : List Record) (d : DateCtx) : Stats :=
  let totalBooked := all.countP (fun r => r.status == "Booked")
  let totalContacted := all.countP (fun r => r.lastCallDate != "")
  let durs := (all.filter (fun r => decide (0 < r.probedDuration))).map (·.probedDuration)
  let bookedLeads := all.filter (fun r => r.status == "Booked" && decide (0 < r.attemptCount))
  let trendDays := (d.last7.eraseDups).insertionSort (fun a b => strLe a b = true)
  { bookedToday := all.countP (fun r => r.status == "Booked" && strStartsWith r.lastCallDate d.today)
    bookedYesterday := all.countP (fun r => r.status == "Booked" && strStartsWith r.lastCallDate d.yesterday)
    readyToCall := all.countP (fun r => r.status == "Ready to Call")
    needsRetry := all.countP (fun r => r.status == "Needs Retry")
    callbacksScheduled := all.countP (fun r => r.status == "Callback Requested")
    currentlyCalling := all.countP (fun r => r.status == "Currently Calling")
    totalCallsToday := all.countP (fun r => r.lastCallDate != "" && strStartsWith r.lastCallDate d.today)
    totalCallsYesterday := all.countP (fun r => r.lastCallDate != "" && strStartsWith r.lastCallDate d.yesterday)
    conversionRateTenths :=
      if 0 < totalContacted then natRoundDiv (1000 * totalBooked) totalContacted else 0
    totalBooked := totalBooked
    totalContacted := totalContacted
    avgDuration :=
      if 0 < durs.length then natRoundDiv (durs.foldl (· + ·) 0) durs.length else 0
    avgAttemptsToBookTenths :=
      if 0 < bookedLeads.length then
        some (natRoundDiv (10 * bookedLeads.foldl (fun a r => a + r.attemptCount) 0)
          bookedLeads.length)
      else none
    callsTrend := trendDays.map fun day =>
      all.countP (fun r => r.lastCallDate != "" && dayOf r.lastCallDate == day)
    bookedTrend := trendDays.map fun day =>
      all.countP (fun r =>
        r.lastCallDate != "" && dayOf r.lastCallDate == day && r.status == "Booked")
    trendDays := trendDays }

/-- The relevant parts of the `/api/leads` JSON response (lines 252–265). -/
structure ViewResponse where
  stats : Stats
  records : List Record
  page : Nat
  limit : Nat
  total : Nat
  pages : Nat
deriving DecidableEq, Repr

/-- The `GET /api/leads` handler after the snapshot fetch (lines 180–265):
filter, sort, paginate, and attach stats computed from the unfiltered
snapshot. -/
def leadsView (all : List Record) (q : Query) (d : DateCtx)
    (strCmp : String → String → Ordering) : ViewResponse :=
  let filtered := applyFilters all q
  let sorted := sortRecords strCmp q.sort q.dir filtered
  let total := sorted.length
  let p := max 1 q.page
  let l := max 1 (min 100 q.limit)
  { stats := computeStats all d
    records := (sorted.drop ((p - 1) * l)).take l
    page := p
    limit := l
    total := total
    pages := (total + l - 1) / l }

/-! ### Concrete instances used by witnesses, counterexamples and examples -/

/-- A one-record upstream page payload. -/
def rawW : RawRecord := ⟨"rec1", [("Status", .s "Booked")]⟩

/-- The normalization of `rawW`. -/
def recW : Record := { id := "rec1", status := "Booked" }

/-- An upstream that always answers with the single page `[rawW]`. -/
def upW : Upstream := fun _ => .ok ⟨[rawW], none⟩

/-- Cold server state: empty snapshot cache, empty duration cache. -/
def stW : SysState := ⟨⟨none, [], 0⟩, []⟩

/-- Server state after fetching `[rawW]` at time 1000. -/
def stW' : SysState := ⟨⟨some [recW], [rawW], 1000⟩, []⟩

/-- An upstream whose page request always fails. -/
def upFailW : Upstream := fun _ => .error "Airtable 500"

/-- A raw record carrying only a recording url. -/
def rawP : RawRecord := ⟨"rec2", [("Latest Recording", .s "u1")]⟩

/-- An upstream that always answers with the single page `[rawP]`. -/
def upP : Upstream := fun _ => .ok ⟨[rawP], none⟩

/-- A metadata oracle answering 96044 bytes (2 seconds of audio). -/
def okOracle : String → HeadResp := fun _ => HeadResp.ok 96044

/-- The record fetched from `rawP` with its probed duration attached. -/
def recP : Record := { id := "rec2", recordingUrl := "u1", probedDuration := 2 }

/-- Server state after fetching `[rawP]` at time 1000 and probing `u1`. -/
def stP' : SysState := ⟨⟨some [recP], [rawP], 1000⟩, [("u1", 2)]⟩

/-- The old record of the diff example: id 1, status New. -/
def c4OldRec : Record := { id := "1", status := "New" }

/-- The new version of record 1: status Booked. -/
def c4NewRec1 : Record := { id := "1", status := "Booked" }

/-- The freshly appearing record 2. -/
def c4NewRec2 : Record := { id := "2", status := "New" }

/-- Two records tied on `attemptCount` but distinguishable. -/
def tieA : Record := { id := "a", firstName := "A", attemptCount := 1 }

/-- See `tieA`. -/
def tieB : Record := { id := "b", firstName := "B", attemptCount := 1 }

/-- A concrete stand-in collation for `localeCompare` (only ever applied
where its behavior is irrelevant: numeric keys never reach it). -/
def lexCmp : String → String → Ordering := compare

/-- A snapshot with one booked lead, for the stats-isolation example. -/
def demoRec : Record :=
  { id := "d1", status := "Booked", lastCallDate := "2026-10-12T10:00:00" }

/-- A query whose status filter matches no record of `[demoRec]`. -/
def demoQuery : Query := { status := "No Match Status" }

/-- A date context for 2026-10-12. -/
def demoCtx : DateCtx :=
  ⟨"2026-10-12", "2026-10-11",
   ["2026-10-06", "2026-10-07", "2026-10-08", "2026-10-09", "2026-10-10",
    "2026-10-11", "2026-10-12"]⟩

/-- A subscribed channel whose `write` throws. -/
def chFail : SSEClient := ⟨1, false⟩

/-- A subscribed channel whose `write` succeeds. -/
def chOk : SSEClient := ⟨2, true⟩

/-! ### Theorems -/

/-- Cache write then read of the same key. -/
theorem durGet_durSet (c : DurCache) (u : String) (d : Nat) :
    durGet (durSet c u d) u = some d := by
  simp [durGet, durSet, List.find?]

/-- Exhaustive case analysis of one `bucketAdd` step. -/
theorem bucketAdd_cases (b : DurationBuckets) (r : Record) :
    (r.probedDuration = 0 ∧ bucketAdd b r = b) ∨
    (0 < r.probedDuration ∧ r.probedDuration ≤ 30 ∧
      bucketAdd b r = { b with b0_30 := b.b0_30 + 1 }) ∨
    (30 < r.probedDuration ∧ r.probedDuration ≤ 60 ∧
      bucketAdd b r = { b with b30_60 := b.b30_60 + 1 }) ∨
    (60 < r.probedDuration ∧ r.probedDuration ≤ 120 ∧
      bucketAdd b r = { b with b1_2m := b.b1_2m + 1 }) ∨
    (120 < r.probedDuration ∧ r.probedDuration ≤ 300 ∧
      bucketAdd b r = { b with b2_5m := b.b2_5m + 1 }) ∨
    (300 < r.probedDuration ∧ r.probedDuration ≤ 600 ∧
      bucketAdd b r = { b with b5_10m := b.b5_10m + 1 }) ∨
    (600 < r.probedDuration ∧ bucketAdd b r = { b with b10mPlus := b.b10mPlus + 1 }) := by
  unfold bucketAdd
  split_ifs with h0 h1 h2 h3 h4 h5
  · exact Or.inr (Or.inl ⟨h0, h1, rfl⟩)
  · exact Or.inr (Or.inr (Or.inl ⟨by omega, h2, rfl⟩))
  · exact Or.inr (Or.inr (Or.inr (Or.inl ⟨by omega, h3, rfl⟩)))
  · exact Or.inr (Or.inr (Or.inr (Or.inr (Or.inl ⟨by omega, h4, rfl⟩))))
  · exact Or.inr (Or.inr (Or.inr (Or.inr (Or.inr (Or.inl ⟨by omega, h5, rfl⟩)))))
  · exact Or.inr (Or.inr (Or.inr (Or.inr (Or.inr (Or.inr ⟨by omega, rfl⟩)))))
  · exact Or.inl ⟨by omega, rfl⟩

/-- Each `bucketAdd` increments exactly the bucket whose range holds the
record's positive probed duration. -/
theorem bucketAdd_fields (b : DurationBuckets) (r : Record) :
    (bucketAdd b r).b0_30 =
      b.b0_30 + (if 0 < r.probedDuration ∧ r.probedDuration ≤ 30 then 1 else 0) ∧
    (bucketAdd b r).b30_60 =
      b.b30_60 + (if 30 < r.probedDuration ∧ r.probedDuration ≤ 60 then 1 else 0) ∧
    (bucketAdd b r).b1_2m =
      b.b1_2m + (if 60 < r.probedDuration ∧ r.probedDuration ≤ 120 then 1 else 0) ∧
    (bucketAdd b r).b2_5m =
      b.b2_5m + (if 120 < r.probedDuration ∧ r.probedDuration ≤ 300 then 1 else 0) ∧
    (bucketAdd b r).b5_10m =
      b.b5_10m + (if 300 < r.probedDuration ∧ r.probedDuration ≤ 600 then 1 else 0) ∧
    (bucketAdd b r).b10mPlus =
      b.b10mPlus + (if 600 < r.probedDuration then 1 else 0) ∧
    (bucketAdd b r).total =
      b.total + (if 0 < r.probedDuration then 1 else 0) := by
  rcases bucketAdd_cases b r with ⟨h1, he⟩ | ⟨h1, h2, he⟩ | ⟨h1, h2, he⟩ |
    ⟨h1, h2, he⟩ | ⟨h1, h2, he⟩ | ⟨h1, h2, he⟩ | ⟨h1, he⟩ <;>
  rw [he] <;>
  unfold DurationBuckets.total <;>
  refine ⟨?_, ?_, ?_, ?_, ?_, ?_, ?_⟩ <;>
  (try simp) <;>
  (try split_ifs) <;>
  omega

/-- Fold characterization of the histogram fields, any accumulator. -/
theorem durationBuckets_foldl (recs : List Record) (b : DurationBuckets) :
    (recs.foldl bucketAdd b).b0_30 = b.b0_30 +
      recs.countP (fun r => decide (0 < r.probedDuration ∧ r.probedDuration ≤ 30)) ∧
    (recs.foldl bucketAdd b).b30_60 = b.b30_60 +
      recs.countP (fun r => decide (30 < r.probedDuration ∧ r.probedDuration ≤ 60)) ∧
    (recs.foldl bucketAdd b).b1_2m = b.b1_2m +
      recs.countP (fun r => decide (60 < r.probedDuration ∧ r.probedDuration ≤ 120)) ∧
    (recs.foldl bucketAdd b).b2_5m = b.b2_5m +
      recs.countP (fun r => decide (120 < r.probedDuration ∧ r.probedDuration ≤ 300)) ∧
    (recs.foldl bucketAdd b).b5_10m = b.b5_10m +
      recs.countP (fun r => decide (300 < r.probedDuration ∧ r.probedDuration ≤ 600)) ∧
    (recs.foldl bucketAdd b).b10mPlus = b.b10mPlus +
      recs.countP (fun r => decide (600 < r.probedDuration)) ∧
    (recs.foldl bucketAdd b).total = b.total +
      recs.countP (fun r => decide (0 < r.probedDuration)) := by
  induction recs generalizing b with
  | nil => simp
  | cons r t ih =>
    simp only [List.foldl_cons, List.countP_cons]
    obtain ⟨i1, i2, i3, i4, i5, i6, i7⟩ := ih (bucketAdd b r)
    obtain ⟨a1, a2, a3, a4, a5, a6, a7⟩ := bucketAdd_fields b r
    refine ⟨?_, ?_, ?_, ?_, ?_, ?_, ?_⟩ <;>
      simp only [i1, i2, i3, i4, i5, i6, i7, a1, a2, a3, a4, a5, a6, a7,
        decide_eq_true_eq] <;>
      split_ifs <;>
      omega

/-- **C10.** In the analytics duration-bucket histogram a record is counted
iff its `probedDuration` is strictly positive: each bucket counts exactly
the records in its half-open range with boundaries 30, 60, 120, 300, 600
seconds, zero-duration records land in no bucket, and the bucket counts sum
to the number of positive-duration records (not to the snapshot size). -/
theorem duration_buckets_partition (recs : List Record) :
    (durationBuckets recs).b0_30 =
      recs.countP (fun r => decide (0 < r.probedDuration ∧ r.probedDuration ≤ 30)) ∧
    (durationBuckets recs).b30_60 =
      recs.countP (fun r => decide (30 < r.probedDuration ∧ r.probedDuration ≤ 60)) ∧
    (durationBuckets recs).b1_2m =
      recs.countP (fun r => decide (60 < r.probedDuration ∧ r.probedDuration ≤ 120)) ∧
    (durationBuckets recs).b2_5m =
      recs.countP (fun r => decide (120 < r.probedDuration ∧ r.probedDuration ≤ 300)) ∧
    (durationBuckets recs).b5_10m =
      recs.countP (fun r => decide (300 < r.probedDuration ∧ r.probedDuration ≤ 600)) ∧
    (durationBuckets recs).b10mPlus =
      recs.countP (fun r => decide (600 < r.probedDuration)) ∧
    (durationBuckets recs).total =
      recs.countP (fun r => decide (0 < r.probedDuration)) := by
  have h := durationBuckets_foldl recs ⟨0, 0, 0, 0, 0, 0⟩
  simpa [durationBuckets, DurationBuckets.total] using h

/-- C9 counterexample: with the subscriber set `[chFail, chOk]` (iteration
order first-to-last) a failing write on the first channel prevents delivery
to the second, and the failing channel is *not* removed from the set —
refuting both halves of the claim. -/
theorem broadcast_failure_cex :
    (broadcast [chFail, chOk]).1 = [] ∧
    chFail ∈ (broadcast [chFail, chOk]).2 ∧
    ¬ (chOk.id ∈ (broadcast [chFail, chOk]).1 ∧ chFail ∉ (broadcast [chFail, chOk]).2) := by
  decide

/-- **C9 (amended).** `broadcast` writes to subscribers in iteration order
with no error handling: exactly the channels in the longest prefix of
successful writes receive the event (a failing write aborts delivery to
every channel after it), and `publish` never modifies the subscriber set —
the failing channel stays subscribed (removal happens only in the request
`close` handler). -/
theorem broadcast_failure_behavior (clients : List SSEClient) :
    broadcast clients =
      ((clients.takeWhile (·.writeOk)).map (·.id), clients) := by
  unfold broadcast
  refine Prod.ext ?_ rfl
  simp only
  induction clients with
  | nil => rfl
  | cons c rest ih =>
    by_cases h : c.writeOk
    · simp [broadcastWrites, List.takeWhile_cons, h, ih]
    · simp [broadcastWrites, List.takeWhile_cons, h]

/-- In a list of records whose ids are duplicate-free, `find?` by the id of
a member returns that member. -/
theorem find?_id_of_nodup (l : List Record) (nr : Record)
    (hnd : (l.map Record.id).Nodup) (hm : nr ∈ l) :
    l.find? (fun r => r.id == nr.id) = some nr := by
  induction l with
  | nil => cases hm
  | cons a t ih =>
    have hnd' : a.id ∉ t.map Record.id ∧ (t.map Record.id).Nodup := by
      simpa [List.nodup_cons] using hnd
    rcases List.mem_cons.mp hm with rfl | hmt
    · exact List.find?_cons_of_pos _ (by simp)
    · have hne : ¬ (a.id == nr.id) = true := by
        simp only [beq_iff_eq]
        intro he
        exact hnd'.1 (he ▸ List.mem_map_of_mem Record.id hmt)
      have hstep : List.find? (fun r => r.id == nr.id) (a :: t) =
          List.find? (fun r => r.id == nr.id) t :=
        List.find?_cons_of_neg t hne
      rw [hstep]
      exact ih hnd'.2 hmt

/-- The old-map lookup finds a member of a duplicate-free snapshot. -/
theorem oldMapGet_self (s : List Record) (nr : Record)
    (hnd : (s.map Record.id).Nodup) (hm : nr ∈ s) :
    oldMapGet s nr.id = some nr := by
  unfold oldMapGet
  refine find?_id_of_nodup s.reverse nr ?_ (List.mem_reverse.mpr hm)
  rw [List.map_reverse]
  exact List.nodup_reverse.mpr hnd

/-- Records that exist only in the old snapshot influence nothing: the
lookup is only consulted at ids of new records. -/
theorem oldMapGet_append_oldonly (old : List Record) (ex : Record) (i : String)
    (hx : ex.id ≠ i) :
    oldMapGet (old ++ [ex]) i = oldMapGet old i := by
  unfold oldMapGet
  rw [List.reverse_append]
  simp only [List.reverse_singleton, List.singleton_append]
  exact List.find?_cons_of_neg old.reverse (by simpa using hx)

/-- **C4.** The diff emits events in new-snapshot iteration order, one
group per new record as `eventsFor` describes; on the spec's example it
emits exactly StatusChange(1), AppointmentBooked(1), NewRecord(2) in that
order; diffing a snapshot (with duplicate-free ids, the upstream identity
invariant) against an identical copy emits nothing; and records present
only in the old snapshot produce no event and change no other record's
events. -/
theorem detectChanges_spec :
    (∀ old nw : List Record, detectChanges old nw = nw.flatMap (eventsFor old)) ∧
    (detectChanges [c4OldRec] [c4NewRec1, c4NewRec2] =
      [.status_change " " "New" "Booked", .appointment_booked " ", .new_lead " "]) ∧
    (∀ s : List Record, (s.map Record.id).Nodup → detectChanges s s = []) ∧
    (∀ old nw : List Record, ∀ ex : Record, ex.id ∉ nw.map Record.id →
      detectChanges (old ++ [ex]) nw = detectChanges old nw) := by
  refine ⟨fun _ _ => rfl, by decide, ?_, ?_⟩
  · intro s hnd
    unfold detectChanges
    rw [List.flatMap_eq_nil_iff]
    intro nr hm
    unfold eventsFor
    rw [oldMapGet_self s nr hnd hm]
    simp
  · intro old nw ex hx
    unfold detectChanges
    induction nw with
    | nil => rfl
    | cons nr t ih =>
      simp only [List.map_cons, List.mem_cons] at hx
      push_neg at hx
      rw [List.flatMap_cons, List.flatMap_cons, ih hx.2]
      congr 1
      unfold eventsFor
      rw [oldMapGet_append_oldonly old ex nr.id hx.1]

/-- Witness for `detectChanges_spec`: a concrete duplicate-free snapshot
diffed against itself yields no events. -/
theorem detectChanges_spec_witness :
    (([c4OldRec, c4NewRec2] : List Record).map Record.id).Nodup ∧
    detectChanges [c4OldRec, c4NewRec2] [c4OldRec, c4NewRec2] = [] := by
  refine ⟨by decide, ?_⟩
  exact detectChanges_spec.2.2.1 [c4OldRec, c4NewRec2] (by decide)


/-- The element right after a prefix, by position. -/
theorem getElem?_append_cons (pre : List TaskState) (a : TaskState)
    (l : List TaskState) : (pre ++ a :: l)[pre.length]? = some a := by
  rw [List.getElem?_append_right (Nat.le_refl pre.length)]
  simp

/-- Overwriting the element right after a prefix. -/
theorem set_append_cons (pre : List TaskState) (a v : TaskState)
    (l : List TaskState) : (pre ++ a :: l).set pre.length v = pre ++ v :: l := by
  induction pre with
  | nil => rfl
  | cons p t ih => simp [ih]

/-- Phase one: while the cache is stale, each `ready` task that runs its
line-52 check starts its own upstream fetch; the cache is untouched. -/
theorem runSched_starts (up : List Record) (now : Int) (c : ConcCache)
    (hstale : cacheFresh c now = false) :
    ∀ (n : Nat) (pre : List TaskState) (f : Nat),
      runSched up now ⟨c, pre ++ List.replicate n .ready, f⟩
          (List.range' pre.length n) =
        ⟨c, pre ++ List.replicate n .awaitingFetch, f + n⟩ := by
  intro n
  induction n with
  | zero => intro pre f; simp [runSched]
  | succ m ih =>
    intro pre f
    rw [List.range'_succ]
    show runSched up now (stepTask up now _ pre.length) _ = _
    have htask : (pre ++ List.replicate (m + 1) TaskState.ready)[pre.length]? =
        some .ready := by
      rw [List.replicate_succ]
      exact getElem?_append_cons pre _ _
    have hset : (pre ++ List.replicate (m + 1) TaskState.ready).set pre.length
        .awaitingFetch = (pre ++ [.awaitingFetch]) ++ List.replicate m .ready := by
      rw [List.replicate_succ, set_append_cons, List.append_assoc]
      rfl
    rw [stepTask, htask]
    simp only [hstale, Bool.false_eq_true, if_false]
    have hlen : pre.length + 1 = (pre ++ [TaskState.awaitingFetch]).length := by
      simp
    rw [hset, hlen]
    rw [ih (pre ++ [TaskState.awaitingFetch]) (f + 1)]
    rw [List.append_assoc]
    have : List.replicate (m + 1) TaskState.awaitingFetch =
        .awaitingFetch :: List.replicate m .awaitingFetch := List.replicate_succ ..
    rw [this]
    have : f + 1 + m = f + (m + 1) := by omega
    rw [this]
    rfl

/-- Phase two: each suspended task resumes, swaps the cache and returns its
own snapshot. -/
theorem runSched_finishes (up : List Record) (now : Int) :
    ∀ (n : Nat) (pre : List TaskState) (c : ConcCache) (f : Nat),
      runSched up now ⟨c, pre ++ List.replicate n .awaitingFetch, f⟩
          (List.range' pre.length n) =
        ⟨if n = 0 then c else ⟨some up, now⟩,
         pre ++ List.replicate n (.done up), f⟩ := by
  intro n
  induction n with
  | zero => intro pre c f; simp [runSched]
  | succ m ih =>
    intro pre c f
    rw [List.range'_succ]
    show runSched up now (stepTask up now _ pre.length) _ = _
    have htask : (pre ++ List.replicate (m + 1) TaskState.awaitingFetch)[pre.length]? =
        some .awaitingFetch := by
      rw [List.replicate_succ]
      exact getElem?_append_cons pre _ _
    have hset : (pre ++ List.replicate (m + 1) TaskState.awaitingFetch).set pre.length
        (.done up) = (pre ++ [.done up]) ++ List.replicate m .awaitingFetch := by
      rw [List.replicate_succ, set_append_cons, List.append_assoc]
      rfl
    rw [stepTask, htask]
    simp only
    have hlen : pre.length + 1 = (pre ++ [TaskState.done up]).length := by simp
    rw [hset, hlen]
    rw [ih (pre ++ [TaskState.done up]) ⟨some up, now⟩ f]
    rw [List.append_assoc]
    have hrep : List.replicate (m + 1) (TaskState.done up) =
        .done up :: List.replicate m (.done up) := List.replicate_succ ..
    rw [hrep]
    cases m <;> simp

/-- C1 counterexample: two `fetchAllRecords` calls both run their line-52
staleness check before either fetch completes (the inevitable event-loop
order when the second call arrives during the first call's `await`): both
start an upstream fetch, two fetches are in flight simultaneously, and the
total is 2 — refuting "exactly one upstream fetch" and "at most one fetch
in flight". -/
theorem concurrent_stale_reads_cex :
    (runSched [recW] 5 (initConc 2) [0, 1]).tasks =
      [.awaitingFetch, .awaitingFetch] ∧
    (runSched [recW] 5 (initConc 2) [0, 1, 0, 1]).fetchCount = 2 ∧
    (runSched [recW] 5 (initConc 2) [0, 1, 0, 1]).fetchCount ≠ 1 := by
  decide

/-- **C1 (amended).** The cache performs no coalescing: with a stale cache,
each of `n` concurrent readers that performs its staleness check before any
fetch completes starts its *own* upstream fetch, so `n` fetches happen (and
are simultaneously in flight), not one.  What survives of the claim: every
reader still receives the same resulting snapshot (the fixed upstream
response), since each installs and returns its own copy of it. -/
theorem concurrent_stale_reads (n : Nat) (up : List Record) (now : Int) :
    (runSched up now (initConc n) (staleBurst n)).fetchCount = n ∧
    ∀ t ∈ (runSched up now (initConc n) (staleBurst n)).tasks,
      t = .done up := by
  have hstale : cacheFresh ⟨none, 0⟩ now = false := by simp [cacheFresh]
  have hsplit : runSched up now (initConc n) (staleBurst n) =
      runSched up now (runSched up now (initConc n) (List.range n))
        (List.range n) := by
    unfold staleBurst runSched
    rw [List.foldl_append]
  have h1 : runSched up now (initConc n) (List.range n) =
      ⟨⟨none, 0⟩, List.replicate n .awaitingFetch, n⟩ := by
    have := runSched_starts up now ⟨none, 0⟩ hstale n [] 0
    simpa [initConc, List.range_eq_range'] using this
  have h2 := runSched_finishes up now n [] ⟨none, 0⟩ n
  rw [hsplit, h1]
  have hr : List.range n = List.range' ([] : List TaskState).length n := by
    simp [List.range_eq_range']
  rw [hr]
  rw [show (⟨⟨none, 0⟩, List.replicate n TaskState.awaitingFetch, n⟩ : ConcState) =
      ⟨⟨none, 0⟩, [] ++ List.replicate n TaskState.awaitingFetch, n⟩ by simp] at *
  rw [h2]
  refine ⟨rfl, ?_⟩
  intro t ht
  simp only [List.nil_append] at ht
  exact List.eq_of_mem_replicate ht


/-- A refresh, successful or not, counts as one upstream snapshot fetch. -/
theorem doRefresh_fetches (st : SysState) (now : Int) (up : Upstream)
    (o : String → HeadResp) (fuel : Nat) :
    (doRefresh st now up o fuel).fetches = 1 := by
  unfold doRefresh
  cases fetchPages up fuel none <;> rfl

/-- A successful refresh installs its own result as the new snapshot, with
the call time as the capture timestamp. -/
theorem doRefresh_ok (st : SysState) (now : Int) (up : Upstream)
    (o : String → HeadResp) (fuel : Nat) (rs : List Record) (st' : SysState)
    (n : Nat) (ev : List ChangeEvent)
    (h : doRefresh st now up o fuel = ⟨.ok rs, st', n, ev⟩) :
    st'.cache.records = some rs ∧ st'.cache.ts = now ∧ n = 1 := by
  unfold doRefresh at h
  cases hp : fetchPages up fuel none with
  | error e => rw [hp] at h; simp [FetchOut.mk.injEq] at h
  | ok raws =>
    rw [hp] at h
    simp only [FetchOut.mk.injEq, Except.ok.injEq] at h
    obtain ⟨h1, h2, h3, _⟩ := h
    rw [← h2, ← h3]
    exact ⟨by rw [← h1], rfl, rfl⟩

/-- A failed refresh leaves the whole server state untouched and
broadcasts nothing. -/
theorem doRefresh_error (st : SysState) (now : Int) (up : Upstream)
    (o : String → HeadResp) (fuel : Nat) (e : String) (st' : SysState)
    (n : Nat) (ev : List ChangeEvent)
    (h : doRefresh st now up o fuel = ⟨.error e, st', n, ev⟩) :
    st' = st ∧ ev = [] := by
  unfold doRefresh at h
  cases hp : fetchPages up fuel none with
  | error e2 =>
    rw [hp] at h
    simp only [FetchOut.mk.injEq] at h
    exact ⟨h.2.1.symm, h.2.2.2.symm⟩
  | ok raws =>
    rw [hp] at h
    simp [FetchOut.mk.injEq] at h

/-- The cache-hit path of line 52. -/
theorem fetch_hit (st : SysState) (now : Int) (up : Upstream)
    (o : String → HeadResp) (fuel : Nat) (rs : List Record)
    (h1 : st.cache.records = some rs) (h2 : now - st.cache.ts < CACHE_TTL) :
    fetchAllRecords st now up o fuel = ⟨.ok rs, st, 0, []⟩ := by
  unfold fetchAllRecords
  rw [h1]
  dsimp only
  rw [if_pos h2]

/-- A stale cache (empty, or past its TTL at every time ≥ `now`) makes the
call refresh: exactly one upstream snapshot fetch happens. -/
theorem fetch_stale_fetches (st : SysState) (now : Int) (up : Upstream)
    (o : String → HeadResp) (fuel : Nat)
    (h : st.cache.records = none ∨ ¬ now - st.cache.ts < CACHE_TTL) :
    (fetchAllRecords st now up o fuel).fetches = 1 := by
  unfold fetchAllRecords
  cases hrec : st.cache.records with
  | none => exact doRefresh_fetches ..
  | some rs =>
    rcases h with h | h
    · rw [hrec] at h; cases h
    · dsimp only
      rw [if_neg h]
      exact doRefresh_fetches ..

/-- **C2.** While the cached snapshot is within its 20-second TTL, a read
performs no upstream fetch and returns the cached snapshot unchanged; and
starting from a cold cache, a first read that succeeds (one fetch) followed
by a second read inside the TTL window yields the same snapshot with no
further fetch — exactly one upstream fetch for the two reads. -/
theorem cache_hit_single_fetch (st : SysState) (now now₂ : Int)
    (up up₂ : Upstream) (o o₂ : String → HeadResp) (fuel fuel₂ : Nat)
    (rs : List Record) :
    (st.cache.records = some rs → now - st.cache.ts < CACHE_TTL →
      fetchAllRecords st now up o fuel = ⟨.ok rs, st, 0, []⟩) ∧
    (st.cache.records = none →
      ∀ st' n ev, fetchAllRecords st now up o fuel = ⟨.ok rs, st', n, ev⟩ →
        now₂ - st'.cache.ts < CACHE_TTL →
          n = 1 ∧ fetchAllRecords st' now₂ up₂ o₂ fuel₂ = ⟨.ok rs, st', 0, []⟩) := by
  constructor
  · intro h1 h2
    exact fetch_hit st now up o fuel rs h1 h2
  · intro hcold st' n ev h hfresh
    have hre : doRefresh st now up o fuel = ⟨.ok rs, st', n, ev⟩ := by
      unfold fetchAllRecords at h
      rw [hcold] at h
      exact h
    obtain ⟨hrec, hts, hn⟩ := doRefresh_ok st now up o fuel rs st' n ev hre
    exact ⟨hn, fetch_hit st' now₂ up₂ o₂ fuel₂ rs hrec hfresh⟩

/-- Witness for `cache_hit_single_fetch`: concrete cold start, one-page
upstream, second read 4 seconds later. -/
theorem cache_hit_single_fetch_witness :
    stW.cache.records = none ∧
    fetchAllRecords stW 1000 upW failOracle 5 = ⟨.ok [recW], stW', 1, []⟩ ∧
    (5000 : Int) - stW'.cache.ts < CACHE_TTL ∧
    fetchAllRecords stW' 5000 upW failOracle 5 = ⟨.ok [recW], stW', 0, []⟩ := by
  have h1 : fetchAllRecords stW 1000 upW failOracle 5 =
      ⟨.ok [recW], stW', 1, []⟩ := by decide
  refine ⟨rfl, h1, by decide, ?_⟩
  exact ((cache_hit_single_fetch stW 1000 5000 upW upW failOracle failOracle
    5 5 [recW]).2 rfl stW' 1 [] h1 (by decide)).2

/-- **C3.** When a read's refetch fails on a page request, the error
propagates to that caller, the server state (snapshot, raw payload,
timestamp, duration cache) is exactly what it was before the call, nothing
is broadcast — and any later call (the cache still being stale) retries
the upstream fetch. -/
theorem fetch_error_preserves_cache (st : SysState) (now : Int)
    (up : Upstream) (o : String → HeadResp) (fuel : Nat) (e : String)
    (st' : SysState) (n : Nat) (ev : List ChangeEvent)
    (h : fetchAllRecords st now up o fuel = ⟨.error e, st', n, ev⟩) :
    st' = st ∧ ev = [] ∧
    ∀ now₂ up₂ o₂ fuel₂, now ≤ now₂ →
      (fetchAllRecords st now₂ up₂ o₂ fuel₂).fetches = 1 := by
  have hstale : st.cache.records = none ∨ ¬ now - st.cache.ts < CACHE_TTL := by
    unfold fetchAllRecords at h
    cases hrec : st.cache.records with
    | none => exact Or.inl rfl
    | some rs =>
      rw [hrec] at h
      dsimp only at h
      by_cases hf : now - st.cache.ts < CACHE_TTL
      · rw [if_pos hf] at h
        simp [FetchOut.mk.injEq] at h
      · exact Or.inr hf
  have hdo : doRefresh st now up o fuel = ⟨.error e, st', n, ev⟩ := by
    unfold fetchAllRecords at h
    cases hrec : st.cache.records with
    | none => rw [hrec] at h; exact h
    | some rs =>
      rw [hrec] at h
      dsimp only at h
      rcases hstale with hs | hs
      · rw [hrec] at hs; cases hs
      · rw [if_neg hs] at h; exact h
  obtain ⟨h1, h2⟩ := doRefresh_error st now up o fuel e st' n ev hdo
  refine ⟨h1, h2, ?_⟩
  intro now₂ up₂ o₂ fuel₂ hle
  refine fetch_stale_fetches st now₂ up₂ o₂ fuel₂ ?_
  rcases hstale with hs | hs
  · exact Or.inl hs
  · exact Or.inr (by omega)

/-- Witness for `fetch_error_preserves_cache`: a concrete failing upstream
leaves the cold state untouched and a retry one second later fetches. -/
theorem fetch_error_preserves_cache_witness :
    fetchAllRecords stW 1000 upFailW failOracle 5 =
      ⟨.error "Airtable 500", stW, 1, []⟩ ∧
    (1000 : Int) ≤ 2000 ∧
    (fetchAllRecords stW 2000 upFailW failOracle 5).fetches = 1 := by
  have h : fetchAllRecords stW 1000 upFailW failOracle 5 =
      ⟨.error "Airtable 500", stW, 1, []⟩ := by decide
  refine ⟨h, by decide, ?_⟩
  exact (fetch_error_preserves_cache stW 1000 upFailW failOracle 5
    "Airtable 500" stW 1 [] h).2.2 2000 upFailW failOracle 5 (by decide)

/-- A successful refresh's snapshot is the normalized page concatenation
with `probedDuration` attached against the updated duration cache. -/
theorem doRefresh_ok_records (st : SysState) (now : Int) (up : Upstream)
    (o : String → HeadResp) (fuel : Nat) (rs : List Record) (st' : SysState)
    (n : Nat) (ev : List ChangeEvent)
    (h : doRefresh st now up o fuel = ⟨.ok rs, st', n, ev⟩) :
    ∃ raws : List RawRecord,
      st'.durCache = probeAllDurations st.durCache o (raws.map normalize) ∧
      rs = (raws.map normalize).map
        (attachProbed (probeAllDurations st.durCache o (raws.map normalize))) := by
  unfold doRefresh at h
  cases hp : fetchPages up fuel none with
  | error e => rw [hp] at h; simp [FetchOut.mk.injEq] at h
  | ok raws =>
    rw [hp] at h
    simp only [FetchOut.mk.injEq, Except.ok.injEq] at h
    obtain ⟨h1, h2, _, _⟩ := h
    exact ⟨raws, by rw [← h2], h1.symm⟩

/-- **C6.** In a snapshot produced by a successful upstream fetch, each
record's `probedDuration` is its explicit call duration when positive,
otherwise the duration held in the duration cache for its recording
reference when one was obtained, otherwise 0. -/
theorem probedDuration_invariant (st : SysState) (now : Int) (up : Upstream)
    (o : String → HeadResp) (fuel : Nat) (rs : List Record) (st' : SysState)
    (ev : List ChangeEvent)
    (h : fetchAllRecords st now up o fuel = ⟨.ok rs, st', 1, ev⟩)
    (r : Record) (hr : r ∈ rs) :
    r.probedDuration =
      if 0 < r.callDuration then r.callDuration
      else (durGet st'.durCache r.recordingUrl).getD 0 := by
  have hdo : doRefresh st now up o fuel = ⟨.ok rs, st', 1, ev⟩ := by
    unfold fetchAllRecords at h
    cases hrec : st.cache.records with
    | none => rw [hrec] at h; exact h
    | some rs0 =>
      rw [hrec] at h
      dsimp only at h
      by_cases hf : now - st.cache.ts < CACHE_TTL
      · rw [if_pos hf] at h
        simp [FetchOut.mk.injEq] at h
      · rw [if_neg hf] at h; exact h
  obtain ⟨raws, hdc, hrs⟩ := doRefresh_ok_records st now up o fuel rs st' 1 ev hdo
  subst hrs
  obtain ⟨r0, hr0, rfl⟩ := List.mem_map.mp hr
  rw [hdc]
  unfold attachProbed
  dsimp only
  rcases Nat.eq_zero_or_pos r0.callDuration with hz | hp
  · simp [hz]
  · simp [hp, Nat.pos_iff_ne_zero.mp hp]

/-- Witness for `probedDuration_invariant`: a concrete fetch that probes a
recording of 96044 bytes attaches 2 seconds to the record. -/
theorem probedDuration_invariant_witness :
    fetchAllRecords stW 1000 upP okOracle 5 = ⟨.ok [recP], stP', 1, []⟩ ∧
    recP ∈ [recP] ∧
    recP.probedDuration =
      if 0 < recP.callDuration then recP.callDuration
      else (durGet stP'.durCache recP.recordingUrl).getD 0 := by
  have h : fetchAllRecords stW 1000 upP okOracle 5 =
      ⟨.ok [recP], stP', 1, []⟩ := by decide
  refine ⟨h, by decide, ?_⟩
  exact probedDuration_invariant stW 1000 upP okOracle 5 [recP] stP' [] h recP
    (by decide)

/-- C5 counterexample: after a first `probeWavDuration("u")` whose metadata
request fails, nothing is memoized (the cache is still empty), so a second
call with the same url issues another metadata request — two calls perform
two requests, not one, refuting the claim that any failure result is
memoized. -/
theorem probe_refetches_after_failure_cex :
    (probeWavDuration [] failOracle "u").cache = [] ∧
    (probeWavDuration (probeWavDuration [] failOracle "u").cache failOracle "u").requests = 1 ∧
    (probeWavDuration [] failOracle "u").requests +
        (probeWavDuration (probeWavDuration [] failOracle "u").cache failOracle "u").requests ≠ 1 := by
  decide

/-- C5 (amended): `probe` returns 0 synchronously on an empty url with no
request; a cache hit answers with no request; a *successful* probe with
content-length above the header size memoizes its value, so the second call
issues no request and returns the first call's value; but a failed request,
and a success with content-length ≤ 44, return 0 *without* memoizing, so a
later call with the same url probes again. -/
theorem probe_memoization (c : DurCache) (o : String → HeadResp) (u : String)
    (d len : Nat) (hne : u ≠ "") :
    (probeWavDuration c o "" = ⟨0, c, 0⟩) ∧
    (durGet c u = some d → probeWavDuration c o u = ⟨d, c, 0⟩) ∧
    (durGet c u = none → o u = .fail → probeWavDuration c o u = ⟨0, c, 1⟩) ∧
    (durGet c u = none → o u = .ok len → len ≤ 44 →
      probeWavDuration c o u = ⟨0, c, 1⟩) ∧
    (durGet c u = none → o u = .ok len → 44 < len →
      probeWavDuration c o u = ⟨wavSeconds len, durSet c u (wavSeconds len), 1⟩ ∧
      probeWavDuration (probeWavDuration c o u).cache o u =
        ⟨wavSeconds len, durSet c u (wavSeconds len), 0⟩) := by
  refine ⟨by simp [probeWavDuration], ?_, ?_, ?_, ?_⟩
  · intro hhit
    simp [probeWavDuration, hne, hhit]
  · intro hmiss hfail
    simp [probeWavDuration, hne, hmiss, hfail]
  · intro hmiss hok hshort
    simp [probeWavDuration, hne, hmiss, hok, hshort]
  · intro hmiss hok hlong
    have h1 : probeWavDuration c o u = ⟨wavSeconds len, durSet c u (wavSeconds len), 1⟩ := by
      simp [probeWavDuration, hne, hmiss, hok, Nat.not_le.mpr hlong]
    refine ⟨h1, ?_⟩
    rw [h1]
    simp [probeWavDuration, hne, durGet_durSet]

/-- Witness for `probe_memoization`: a concrete successful probe
(content-length 96044, i.e. 2 seconds of audio) is memoized and the second
call answers from the cache with no request. -/
theorem probe_memoization_witness :
    ("u" : String) ≠ "" ∧
    probeWavDuration (probeWavDuration [] (fun _ => HeadResp.ok 96044) "u").cache
        (fun _ => HeadResp.ok 96044) "u" =
      ⟨wavSeconds 96044, durSet [] "u" (wavSeconds 96044), 0⟩ := by
  refine ⟨by decide, ?_⟩
  exact ((probe_memoization [] (fun _ => HeadResp.ok 96044) "u" 0 96044 (by decide)).2.2.2.2
    (by decide) rfl (by decide)).2


/-- **C7.** The stats block of the view response depends only on the
snapshot and the date context, never on the query — any two queries over
the same snapshot receive identical stats, computed over the full
unfiltered snapshot.  Concretely: a query filtering the one-record booked
snapshot `[demoRec]` down to zero matches still reports one booked lead. -/
theorem stats_independent_of_query :
    (∀ (all : List Record) (q₁ q₂ : Query) (d : DateCtx)
        (strCmp₁ strCmp₂ : String → String → Ordering),
      (leadsView all q₁ d strCmp₁).stats = (leadsView all q₂ d strCmp₂).stats) ∧
    (leadsView [demoRec] demoQuery demoCtx lexCmp).records = [] ∧
    (leadsView [demoRec] demoQuery demoCtx lexCmp).total = 0 ∧
    (leadsView [demoRec] demoQuery demoCtx lexCmp).stats.totalBooked = 1 := by
  refine ⟨fun all q₁ q₂ d c₁ c₂ => rfl, ?_, ?_, ?_⟩ <;> decide

/-- C8 counterexample: sorting two records tied on the (numeric) sort key
`attemptCount`, the stable sort keeps input order in *both* directions, so
the descending result is not the reverse of the ascending result. -/
theorem sort_desc_not_reverse_cex :
    sortRecords lexCmp "attemptCount" "asc" [tieA, tieB] = [tieA, tieB] ∧
    sortRecords lexCmp "attemptCount" "desc" [tieA, tieB] = [tieA, tieB] ∧
    sortRecords lexCmp "attemptCount" "desc" [tieA, tieB] ≠
      (sortRecords lexCmp "attemptCount" "asc" [tieA, tieB]).reverse := by
  decide

/-- Descending direction is exactly the flipped comparator (lines 200–202
swap the operands). -/
theorem recLE_desc_flip (strCmp : String → String → Ordering) (key : String)
    (a b : Record) :
    recLE strCmp key "desc" a b ↔ recLE strCmp key "asc" b a := by
  unfold recLE recCmp
  simp

/-- **C8 (amended).** Whenever the comparator induced by the named sort key
and collation is transitive and total (so in particular for every key whose
values are all numeric, for any collation), the view's sort returns a
permutation of its input ordered by that comparator; the descending
direction sorts by the flipped comparator, so it is ordered in the opposite
sense — but, the sort being stable, tied records keep their input order in
both directions, so descending is the reverse of ascending only up to ties;
and when both compared values are numbers the comparator orders them
numerically. -/
theorem sort_ordered_by_field (strCmp : String → String → Ordering)
    (key : String) (recs : List Record)
    (htrans : ∀ a b c : Record, recLE strCmp key "asc" a b →
      recLE strCmp key "asc" b c → recLE strCmp key "asc" a c)
    (htotal : ∀ a b : Record,
      recLE strCmp key "asc" a b ∨ recLE strCmp key "asc" b a) :
    ((sortRecords strCmp key "asc" recs).Pairwise (recLE strCmp key "asc") ∧
      List.Perm (sortRecords strCmp key "asc" recs) recs) ∧
    ((sortRecords strCmp key "desc" recs).Pairwise
        (fun a b => recLE strCmp key "asc" b a) ∧
      List.Perm (sortRecords strCmp key "desc" recs) recs) ∧
    (∀ a b : Record, ∀ m n : Nat, getJSField a key = .num m →
      getJSField b key = .num n → (recLE strCmp key "asc" a b ↔ m ≤ n)) := by
  have hflip := recLE_desc_flip strCmp key
  refine ⟨⟨?_, ?_⟩, ⟨?_, ?_⟩, ?_⟩
  · letI : IsTrans Record (recLE strCmp key "asc") := ⟨htrans⟩
    letI : IsTotal Record (recLE strCmp key "asc") := ⟨htotal⟩
    exact List.sorted_insertionSort (recLE strCmp key "asc") recs
  · exact List.perm_insertionSort (recLE strCmp key "asc") recs
  · letI : IsTrans Record (recLE strCmp key "desc") := ⟨fun a b c hab hbc =>
      (hflip a c).mpr (htrans c b a ((hflip b c).mp hbc) ((hflip a b).mp hab))⟩
    letI : IsTotal Record (recLE strCmp key "desc") := ⟨fun a b => by
      rcases htotal b a with h | h
      · exact Or.inl ((hflip a b).mpr h)
      · exact Or.inr ((hflip b a).mpr h)⟩
    have hs := List.sorted_insertionSort (recLE strCmp key "desc") recs
    exact hs.imp fun hab => (hflip _ _).mp hab
  · exact List.perm_insertionSort (recLE strCmp key "desc") recs
  · intro a b m n ha hb
    unfold recLE recCmp
    rw [if_pos rfl, ha, hb]
    unfold cmpJS
    simp [Nat.compare_eq_gt]

/-- Witness for `sort_ordered_by_field`: the numeric key `attemptCount`
induces a transitive, total comparator for any collation, and sorting a
concrete two-record list ascending yields an ordered permutation. -/
theorem sort_ordered_by_field_witness :
    ((∀ a b c : Record, recLE lexCmp "attemptCount" "asc" a b →
        recLE lexCmp "attemptCount" "asc" b c →
        recLE lexCmp "attemptCount" "asc" a c) ∧
      (∀ a b : Record, recLE lexCmp "attemptCount" "asc" a b ∨
        recLE lexCmp "attemptCount" "asc" b a)) ∧
    ((sortRecords lexCmp "attemptCount" "asc" [tieB, tieA]).Pairwise
        (recLE lexCmp "attemptCount" "asc") ∧
      List.Perm (sortRecords lexCmp "attemptCount" "asc" [tieB, tieA]) [tieB, tieA]) := by
  have hnum : ∀ r : Record, getJSField r "attemptCount" = .num r.attemptCount :=
    fun r => rfl
  have htrans : ∀ a b c : Record, recLE lexCmp "attemptCount" "asc" a b →
      recLE lexCmp "attemptCount" "asc" b c →
      recLE lexCmp "attemptCount" "asc" a c := by
    intro a b c
    unfold recLE recCmp
    rw [if_pos rfl, if_pos rfl, if_pos rfl, hnum a, hnum b, hnum c]
    unfold cmpJS
    simp [Nat.compare_eq_gt]
    omega
  have htotal : ∀ a b : Record, recLE lexCmp "attemptCount" "asc" a b ∨
      recLE lexCmp "attemptCount" "asc" b a := by
    intro a b
    unfold recLE recCmp
    rw [if_pos rfl, if_pos rfl, hnum a, hnum b]
    unfold cmpJS
    simp [Nat.compare_eq_gt]
    omega
  exact ⟨⟨htrans, htotal⟩,
    (sort_ordered_by_field lexCmp "attemptCount" [tieB, tieA] htrans htotal).1⟩

end Server
